import Mathlib

/-!
# Verification of the user-data viewer (yahorsarokin/ai-hw)

Shallow embedding of the client-side core of the repository: the filter
engine and delete handler of `src/App.tsx`, the row click handling of
`src/components/UserTable/UserTable.tsx`, the modal lifecycle effect of
`src/components/UserModal/UserModal.tsx`, and the posts fetch/expansion
state of `src/components/PostsList/PostsList.tsx`.

JavaScript strings are modelled as `List Char`; JS runtime errors raised
during rendering are modelled with `Except`.
-/

namespace AiHw

/-- JavaScript strings, modelled as lists of characters. -/
abbrev Str := List Char

/-- The whitespace test underlying `String.prototype.trim` (the ASCII
whitespace characters relevant to this code base). -/
def jsIsWhitespace (c : Char) : Bool :=
  c == ' ' || c == '\t' || c == '\n' || c == '\r' || c == '\x0b' || c == '\x0c'

/-- `s.trim()`: strips leading and trailing whitespace. -/
def jsTrim (s : Str) : Str :=
  ((s.dropWhile jsIsWhitespace).reverse.dropWhile jsIsWhitespace).reverse

/-- `s.toLowerCase()` (ASCII case mapping, which is all this data uses). -/
def jsToLower (s : Str) : Str := s.map Char.toLower

/-- `s.includes(sub)`: `sub` occurs as a contiguous substring of `s`. -/
def jsIncludes (s sub : Str) : Bool := decide (sub <:+: s)

/-! ## Record types (spec section 3; `src/types/User.ts`, `src/types/Post.ts`) -/

structure Geo where
  lat : Str
  lng : Str
deriving DecidableEq

structure Address where
  street : Str
  suite : Str
  city : Str
  zipcode : Str
  geo : Geo
deriving DecidableEq

structure Company where
  name : Str
  catchPhrase : Str
  bs : Str
deriving DecidableEq

structure User where
  id : Int
  name : Str
  username : Str
  email : Str
  address : Address
  phone : Str
  website : Str
  company : Company
deriving DecidableEq

structure Post where
  userId : Int
  id : Int
  title : Str
  body : Str
deriving DecidableEq

/-! ## Filter engine (`src/App.tsx` lines 54-67, `filteredUsers`) -/

/-- The predicate of the `users.filter` call inside `filteredUsers`:
any of name, email, company.name, username contains the lowered term. -/
def userMatches (searchLower : Str) (user : User) : Bool :=
  jsIncludes (jsToLower user.name) searchLower ||
  jsIncludes (jsToLower user.email) searchLower ||
  jsIncludes (jsToLower user.company.name) searchLower ||
  jsIncludes (jsToLower user.username) searchLower

/-- `filteredUsers` from `src/App.tsx`: if the trimmed term is empty
(falsy string), return `users` unchanged; otherwise filter by
case-insensitive substring match over the four text fields. -/
def filteredUsers (users : List User) (searchTerm : Str) : List User :=
  if jsTrim searchTerm = [] then users
  else users.filter (userMatches (jsToLower searchTerm))

/-! ## Delete handler (`src/App.tsx` lines 45-47, `handleDeleteUser`) -/

/-- `handleDeleteUser`: `users.filter((user) => user.id !== userId)`. -/
def handleDeleteUser (users : List User) (userId : Int) : List User :=
  users.filter (fun user => user.id != userId)

/-! ## Helper lemmas about `jsTrim` -/

theorem dropWhile_all_iff (p : Char → Bool) (s : Str) :
    (∀ c ∈ s.dropWhile p, p c = true) ↔ ∀ c ∈ s, p c = true := by
  constructor
  · intro h c hc
    have hsplit : c ∈ s.takeWhile p ++ s.dropWhile p := by
      rw [List.takeWhile_append_dropWhile]; exact hc
    rcases List.mem_append.mp hsplit with h1 | h2
    · exact List.mem_takeWhile_imp h1
    · exact h c h2
  · intro h c hc
    exact h c ((s.dropWhile_sublist p).mem hc)

theorem jsTrim_eq_nil_iff (s : Str) :
    jsTrim s = [] ↔ ∀ c ∈ s, jsIsWhitespace c = true := by
  unfold jsTrim
  rw [List.reverse_eq_nil_iff, List.dropWhile_eq_nil_iff]
  constructor
  · intro h
    rw [← dropWhile_all_iff jsIsWhitespace s]
    intro c hc
    exact h c (List.mem_reverse.mpr hc)
  · intro h c hc
    exact (dropWhile_all_iff jsIsWhitespace s).mpr h c (List.mem_reverse.mp hc)

/-! ## Sample records (spec section 8, scenario A) -/

def johnDoe : User :=
  { id := 1
    name := ("John Doe").toList
    username := ("johndoe").toList
    email := ("john@example.com").toList
    address :=
      { street := ("Main St").toList
        suite := ("Apt. 1").toList
        city := ("Springfield").toList
        zipcode := ("12345").toList
        geo := { lat := ("0.0").toList, lng := ("0.0").toList } }
    phone := ("555-1234").toList
    website := ("example.com").toList
    company :=
      { name := ("Test Company").toList
        catchPhrase := ("synergy").toList
        bs := ("markets").toList } }

def janeSmith : User :=
  { id := 2
    name := ("Jane Smith").toList
    username := ("janesmith").toList
    email := ("jane@example.com").toList
    address :=
      { street := ("Oak Ave").toList
        suite := ("Apt. 2").toList
        city := ("Shelbyville").toList
        zipcode := ("54321").toList
        geo := { lat := ("1.0").toList, lng := ("1.0").toList } }
    phone := ("555-5678").toList
    website := ("jane.example.org").toList
    company :=
      { name := ("Another Company").toList
        catchPhrase := ("disrupt").toList
        bs := ("solutions").toList } }

def sampleUsers : List User := [johnDoe, janeSmith]

/-! ## Claims about the filter engine and delete handler -/

/-- C1: for a search term that is neither empty nor whitespace-only,
`filteredUsers` is an order-preserving subsequence of its input, and a
record is kept iff the lowercased term is a substring of the lowercased
name, email, company name, or username. -/
theorem filteredUsers_nonblank_spec (R : List User) (T : Str)
    (hne : T ≠ []) (hws : ¬ ∀ c ∈ T, jsIsWhitespace c = true) :
    (filteredUsers R T).Sublist R ∧
    ∀ u, u ∈ filteredUsers R T ↔ u ∈ R ∧
      (jsToLower T <:+: jsToLower u.name ∨ jsToLower T <:+: jsToLower u.email ∨
       jsToLower T <:+: jsToLower u.company.name ∨ jsToLower T <:+: jsToLower u.username) := by
  have htrim : jsTrim T ≠ [] := fun h => hws ((jsTrim_eq_nil_iff T).mp h)
  unfold filteredUsers
  rw [if_neg htrim]
  refine ⟨List.filter_sublist R, fun u => ?_⟩
  rw [List.mem_filter]
  unfold userMatches jsIncludes
  simp [Bool.or_eq_true, decide_eq_true_eq, or_assoc]

/-- Witness for C1 at the concrete term "john" over the sample records. -/
theorem filteredUsers_nonblank_spec_witness :
    (filteredUsers sampleUsers (("john").toList)).Sublist sampleUsers ∧
    ∀ u, u ∈ filteredUsers sampleUsers (("john").toList) ↔ u ∈ sampleUsers ∧
      (jsToLower (("john").toList) <:+: jsToLower u.name ∨
       jsToLower (("john").toList) <:+: jsToLower u.email ∨
       jsToLower (("john").toList) <:+: jsToLower u.company.name ∨
       jsToLower (("john").toList) <:+: jsToLower u.username) :=
  filteredUsers_nonblank_spec sampleUsers (("john").toList) (by decide) (by decide)

/-- C6: the empty search term and every whitespace-only search term are
the identity of the filter: `filteredUsers` returns the record set
unchanged, complete and in order. -/
theorem filteredUsers_blank_identity (R : List User) :
    filteredUsers R [] = R ∧
    ∀ T, (∀ c ∈ T, jsIsWhitespace c = true) → filteredUsers R T = R := by
  constructor
  · rfl
  · intro T h
    unfold filteredUsers
    rw [if_pos ((jsTrim_eq_nil_iff T).mpr h)]

/-- Witness for C6 at the empty term and the three-space term. -/
theorem filteredUsers_blank_identity_witness :
    filteredUsers sampleUsers [] = sampleUsers ∧
    filteredUsers sampleUsers (("   ").toList) = sampleUsers :=
  ⟨(filteredUsers_blank_identity sampleUsers).1,
   (filteredUsers_blank_identity sampleUsers).2 (("   ").toList) (by decide)⟩

/-- C7: deletion is idempotent, and a no-op when no record carries the
deleted id. -/
theorem handleDeleteUser_idempotent_noop (R : List User) (i : Int) :
    handleDeleteUser (handleDeleteUser R i) i = handleDeleteUser R i ∧
    ((∀ u ∈ R, u.id ≠ i) → handleDeleteUser R i = R) := by
  constructor
  · unfold handleDeleteUser
    rw [List.filter_filter]
    simp
  · intro h
    unfold handleDeleteUser
    rw [List.filter_eq_self]
    intro u hu
    simpa [bne_iff_ne] using h u hu

/-- Witness for C7 at the absent id 99 over the sample records. -/
theorem handleDeleteUser_idempotent_noop_witness :
    handleDeleteUser (handleDeleteUser sampleUsers 99) 99 = handleDeleteUser sampleUsers 99 ∧
    handleDeleteUser sampleUsers 99 = sampleUsers :=
  ⟨(handleDeleteUser_idempotent_noop sampleUsers 99).1,
   (handleDeleteUser_idempotent_noop sampleUsers 99).2 (by decide)⟩

/-! ## Application state (`src/App.tsx` lines 9-13) and the delete action -/

/-- The five `useState` slots of the `App` component. -/
structure AppState where
  users : List User
  selectedUser : Option User
  loading : Bool
  error : Option Str
  searchTerm : Str
deriving DecidableEq

/-- The delete handler as a transition on the whole application state:
`handleDeleteUser` calls only `setUsers` (App.tsx lines 45-47). -/
def appDeleteUser (s : AppState) (userId : Int) : AppState :=
  { s with users := handleDeleteUser s.users userId }

/-- C8: deletion mutates only the records component: selection, search
term and fetch status (loading/error) are untouched, for every state,
including states whose selected record carries the deleted id. -/
theorem appDeleteUser_frame (s : AppState) (userId : Int) :
    (appDeleteUser s userId).selectedUser = s.selectedUser ∧
    (appDeleteUser s userId).searchTerm = s.searchTerm ∧
    (appDeleteUser s userId).loading = s.loading ∧
    (appDeleteUser s userId).error = s.error :=
  ⟨rfl, rfl, rfl, rfl⟩

/-! ## Detail overlay lifecycle (`src/components/UserModal/UserModal.tsx`
lines 11-25)

The `useEffect` of `UserModal` registers a `keydown` (Escape) listener and
sets `document.body.style.overflow = "hidden"`; its cleanup removes the
listener and sets the overflow to the literal `"auto"`. React runs the
cleanup on unmount and before every re-run of the effect. The page-level
state visible to this effect is modelled below, and all exit paths
(Escape, backdrop click, close button, external unmount) funnel through
`setSelectedUser(null)` in `App`, which unmounts the modal. -/

def overflowHidden : Str := ("hidden").toList

def overflowAuto : Str := ("auto").toList

/-- Page-level state the modal lifecycle touches. -/
structure PageState where
  modalOpen : Bool
  escListenerRegistered : Bool
  bodyOverflow : Str
deriving DecidableEq

/-- Body of the modal effect: register the Escape listener, lock scroll. -/
def modalEffectSetup (s : PageState) : PageState :=
  { s with escListenerRegistered := true, bodyOverflow := overflowHidden }

/-- Cleanup of the modal effect: remove the listener, set overflow to the
literal "auto". -/
def modalEffectCleanup (s : PageState) : PageState :=
  { s with escListenerRegistered := false, bodyOverflow := overflowAuto }

/-- Externally visible events of the overlay lifecycle. The four close
events all unmount the modal (React then runs the cleanup); a re-render
with a fresh `onClose` identity re-runs the effect (cleanup then setup). -/
inductive ModalEvent
  | selectUser
  | closeEscape
  | closeBackdrop
  | closeButton
  | unmountExternal
  | effectRerun

/-- One step of the overlay lifecycle. -/
def modalStep (s : PageState) : ModalEvent → PageState
  | .selectUser => if s.modalOpen then s else modalEffectSetup { s with modalOpen := true }
  | .closeEscape => if s.modalOpen then modalEffectCleanup { s with modalOpen := false } else s
  | .closeBackdrop => if s.modalOpen then modalEffectCleanup { s with modalOpen := false } else s
  | .closeButton => if s.modalOpen then modalEffectCleanup { s with modalOpen := false } else s
  | .unmountExternal => if s.modalOpen then modalEffectCleanup { s with modalOpen := false } else s
  | .effectRerun => if s.modalOpen then modalEffectSetup (modalEffectCleanup s) else s

/-- Initial page state: no modal, no listener, default overflow. -/
def pageInit : PageState :=
  { modalOpen := false, escListenerRegistered := false, bodyOverflow := overflowAuto }

/-- The overlay invariant: listener registered and scroll locked exactly
when the overlay is open. -/
def modalInv (s : PageState) : Prop :=
  s.escListenerRegistered = s.modalOpen ∧
  s.bodyOverflow = (if s.modalOpen then overflowHidden else overflowAuto)

theorem modalStep_preserves (s : PageState) (e : ModalEvent) (h : modalInv s) :
    modalInv (modalStep s e) := by
  obtain ⟨h1, h2⟩ := h
  cases e <;>
    cases hs : s.modalOpen <;>
      simp_all [modalStep, modalInv, modalEffectSetup, modalEffectCleanup]

theorem modalRun_preserves (evs : List ModalEvent) (s : PageState) (h : modalInv s) :
    modalInv (evs.foldl modalStep s) := by
  induction evs generalizing s with
  | nil => exact h
  | cons e rest ih => exact ih (modalStep s e) (modalStep_preserves s e h)

/-- C4: along every sequence of open/close/re-render events from the
initial page state -- closes by Escape, backdrop, close button, or
external unmount alike -- the Escape listener is registered and the
background scroll is locked if and only if the overlay is open. -/
theorem modal_lifecycle_invariant (evs : List ModalEvent) :
    (evs.foldl modalStep pageInit).escListenerRegistered =
      (evs.foldl modalStep pageInit).modalOpen ∧
    (evs.foldl modalStep pageInit).bodyOverflow =
      (if (evs.foldl modalStep pageInit).modalOpen then overflowHidden else overflowAuto) :=
  modalRun_preserves evs pageInit ⟨rfl, rfl⟩

/-- C10: the cleanup writes the fixed literal "auto" into the body's
overflow; it does not restore the previous value, so any prior value
other than "auto" is lost on close. -/
theorem modalEffectCleanup_sets_auto (s : PageState)
    (h : s.bodyOverflow ≠ overflowAuto) :
    (modalEffectCleanup s).bodyOverflow = overflowAuto ∧
    (modalEffectCleanup s).bodyOverflow ≠ s.bodyOverflow :=
  ⟨rfl, fun hc => h hc.symm⟩

/-- Witness for C10 at a page whose body overflow was "scroll". -/
theorem modalEffectCleanup_sets_auto_witness :
    (modalEffectCleanup
      { modalOpen := true, escListenerRegistered := true,
        bodyOverflow := ("scroll").toList }).bodyOverflow = overflowAuto ∧
    (modalEffectCleanup
      { modalOpen := true, escListenerRegistered := true,
        bodyOverflow := ("scroll").toList }).bodyOverflow ≠ ("scroll").toList :=
  modalEffectCleanup_sets_auto
    { modalOpen := true, escListenerRegistered := true,
      bodyOverflow := ("scroll").toList } (by decide)

/-! ## Table view row clicks (`src/components/UserTable/UserTable.tsx`
lines 34-71)

One rendered row is a `tr` holding six `td`s. The first five `td`s carry
`onClick={() => onUserClick(user)}`; the website `td` additionally holds
an `a` whose `onClick` only calls `stopPropagation`; the sixth (ACTION)
`td` has no handler and holds the delete `button` whose `onClick` calls
`stopPropagation` and `onDeleteUser(user.id)`. Click dispatch bubbles
from the target up the parent chain until an element stops propagation. -/

inductive RowNode
  | tr
  | tdName
  | tdAddress
  | tdPhone
  | tdWebsite
  | tdCompany
  | tdAction
  | websiteLink
  | deleteButton
deriving DecidableEq

/-- The DOM bubble path from a click target up to the row element. -/
def bubblePath : RowNode → List RowNode
  | .tr => [.tr]
  | .tdName => [.tdName, .tr]
  | .tdAddress => [.tdAddress, .tr]
  | .tdPhone => [.tdPhone, .tr]
  | .tdWebsite => [.tdWebsite, .tr]
  | .tdCompany => [.tdCompany, .tr]
  | .tdAction => [.tdAction, .tr]
  | .websiteLink => [.websiteLink, .tdWebsite, .tr]
  | .deleteButton => [.deleteButton, .tdAction, .tr]

/-- A callback invocation observed by `App`. -/
inductive CallbackCall
  | onUserClick (u : User)
  | onDeleteUser (i : Int)
deriving DecidableEq

/-- The calls made by the click handler attached to one element (empty
when the element has no handler or the handler only stops propagation). -/
def handlerCalls (u : User) : RowNode → List CallbackCall
  | .tdName => [CallbackCall.onUserClick u]
  | .tdAddress => [CallbackCall.onUserClick u]
  | .tdPhone => [CallbackCall.onUserClick u]
  | .tdWebsite => [CallbackCall.onUserClick u]
  | .tdCompany => [CallbackCall.onUserClick u]
  | .deleteButton => [CallbackCall.onDeleteUser u.id]
  | .websiteLink => []
  | .tdAction => []
  | .tr => []

/-- Whether the element's handler calls `event.stopPropagation()`. -/
def stopsPropagation : RowNode → Bool
  | .websiteLink => true
  | .deleteButton => true
  | _ => false

/-- Bubbling dispatch: run each handler on the path until one stops
propagation. -/
def dispatchClick (u : User) : List RowNode → List CallbackCall
  | [] => []
  | n :: rest =>
      handlerCalls u n ++ (if stopsPropagation n then [] else dispatchClick u rest)

/-- All callback invocations of a click on target `t` in the row of `u`. -/
def rowClick (u : User) (t : RowNode) : List CallbackCall :=
  dispatchClick u (bubblePath t)

/-- C5 counterexample: the ACTION cell is part of the row and is neither
the delete affordance nor the website link, yet clicking it (outside the
button) invokes no callback at all -- in particular not `onSelect`. -/
theorem rowClick_tdAction_counterexample :
    RowNode.tdAction ≠ RowNode.deleteButton ∧
    RowNode.tdAction ≠ RowNode.websiteLink ∧
    rowClick johnDoe RowNode.tdAction = [] := by
  refine ⟨by decide, by decide, rfl⟩

/-- C5 amended: a click on the name/email, address, phone, website
(outside the link), or company cell invokes exactly `onSelect` with the
row's record; the delete button invokes exactly `onDelete` with the
row's id (no `onSelect`); the website link, the ACTION cell outside the
button, and the bare row invoke nothing. -/
theorem rowClick_spec (u : User) :
    rowClick u RowNode.tdName = [CallbackCall.onUserClick u] ∧
    rowClick u RowNode.tdAddress = [CallbackCall.onUserClick u] ∧
    rowClick u RowNode.tdPhone = [CallbackCall.onUserClick u] ∧
    rowClick u RowNode.tdWebsite = [CallbackCall.onUserClick u] ∧
    rowClick u RowNode.tdCompany = [CallbackCall.onUserClick u] ∧
    rowClick u RowNode.deleteButton = [CallbackCall.onDeleteUser u.id] ∧
    rowClick u RowNode.websiteLink = [] ∧
    rowClick u RowNode.tdAction = [] ∧
    rowClick u RowNode.tr = [] :=
  ⟨rfl, rfl, rfl, rfl, rfl, rfl, rfl, rfl, rfl⟩

/-! ## Runtime payload and defensive rendering (C2)

`fetchUsers` stores the decoded JSON body verbatim (`setUsers(data)`,
App.tsx lines 28-29). At runtime the body of a 200 response can be the
JSON literal `null`; the `User[]` annotation does not guard it. With the
default empty search term, `filteredUsers` returns the stored value
unchanged, and `UserTable` evaluates `users.map(...)` (UserTable.tsx
line 34), which throws a TypeError when `users` is `null`. -/

/-- A decoded JSON payload as stored by `setUsers(data)`. -/
inductive Payload
  | arr (users : List User)
  | null
deriving DecidableEq

/-- A JavaScript runtime error raised during rendering. -/
inductive JsError
  | typeError (msg : Str)
deriving DecidableEq

/-- The fetch-relevant `App` state, with the records slot held at its
runtime (untyped) value. -/
structure AppFetchState where
  users : Payload
  loading : Bool
  error : Option Str
deriving DecidableEq

/-- State of `App` before the fetch resolves. -/
def appFetchInit : AppFetchState :=
  { users := Payload.arr [], loading := true, error := none }

/-- The success path of `fetchUsers`: `setUsers(data)` verbatim, then
`setLoading(false)` in the `finally` block. -/
def fetchUsersSuccess (s : AppFetchState) (data : Payload) : AppFetchState :=
  { s with users := data, loading := false }

/-- The rendered table: the header shell plus one row per record. -/
structure RenderedTable where
  headers : List Str
  rows : List User
deriving DecidableEq

/-- The column headers of `UserTable` (UserTable.tsx lines 25-30). -/
def tableHeaders : List Str :=
  [("NAME / EMAIL").toList, ("ADDRESS").toList, ("PHONE").toList,
   ("WEBSITE").toList, ("COMPANY").toList, ("ACTION").toList]

/-- Rendering `UserTable` on the runtime value of its `users` prop:
`users.map` yields the rows for an array and throws a TypeError for
`null`. -/
def renderUserTable : Payload → Except JsError RenderedTable
  | .arr us => .ok { headers := tableHeaders, rows := us }
  | .null => .error (JsError.typeError (("Cannot read properties of null").toList))

/-- C2 (code bug): a `null` payload is stored verbatim, but rendering the
table then throws instead of producing the header shell with no rows.
The repository's own test ("handles malformed API response gracefully")
and the spec expect `renderUserTable` to succeed here. -/
theorem render_null_payload_throws :
    (fetchUsersSuccess appFetchInit Payload.null).users = Payload.null ∧
    renderUserTable (fetchUsersSuccess appFetchInit Payload.null).users =
      .error (JsError.typeError (("Cannot read properties of null").toList)) ∧
    renderUserTable (fetchUsersSuccess appFetchInit Payload.null).users ≠
      .ok { headers := tableHeaders, rows := [] } :=
  ⟨rfl, rfl, fun h => Except.noConfusion h⟩

/-! ## Nested detail list fetch lifecycle (`src/components/PostsList/PostsList.tsx`)

The `useEffect` keyed on `userId` issues a fetch for the new id after
setting `loading = true` and `error = null`. The effect has no cleanup
and the resolution handlers carry no staleness guard: a resolving fetch
calls `setPosts`/`setError` and `setLoading(false)` unconditionally,
whatever the current `userId` prop is. `postsSource` is a ghost field
recording which requested id produced the currently stored posts. -/

structure PostsState where
  userId : Int
  posts : List Post
  postsSource : Option Int
  loading : Bool
  error : Option Str
  inFlight : List Int
deriving DecidableEq

/-- Mounting `PostsList` with initial prop `u0`: the effect runs once and
issues the first fetch. -/
def postsInit (u0 : Int) : PostsState :=
  { userId := u0, posts := [], postsSource := none, loading := true,
    error := none, inFlight := [u0] }

/-- Events of the posts fetch lifecycle: the `userId` prop changes (the
effect re-runs and issues a new fetch), or a previously issued fetch
resolves or rejects. Resolutions of never-issued requests are ignored;
each issued request resolves at most once. -/
inductive PostsEvent
  | changeUserId (newId : Int)
  | fetchResolves (fid : Int) (data : List Post)
  | fetchFails (fid : Int) (msg : Str)

/-- One step of the posts lifecycle, exactly as the effect body and the
`then`/`catch`/`finally` handlers write the state. -/
def postsStep (s : PostsState) : PostsEvent → PostsState
  | .changeUserId newId =>
      { s with userId := newId, loading := true, error := none,
               inFlight := s.inFlight ++ [newId] }
  | .fetchResolves fid data =>
      if fid ∈ s.inFlight then
        { s with posts := data, postsSource := some fid, loading := false,
                 inFlight := s.inFlight.erase fid }
      else s
  | .fetchFails fid msg =>
      if fid ∈ s.inFlight then
        { s with error := some msg, loading := false,
                 inFlight := s.inFlight.erase fid }
      else s

/-- A post of user 1 and a post of user 2, for the stale trace. -/
def stalePostA : Post :=
  { userId := 1, id := 101, title := ("a").toList, body := ("a").toList }

def stalePostB : Post :=
  { userId := 2, id := 201, title := ("b").toList, body := ("b").toList }

/-- The interleaving that breaks C3: mounted for user 1, the prop changes
to user 2 while fetch 1 is in flight; fetch 2 resolves, then the stale
fetch 1 resolves last. -/
def staleTrace : List PostsEvent :=
  [PostsEvent.changeUserId 2,
   PostsEvent.fetchResolves 2 [stalePostB],
   PostsEvent.fetchResolves 1 [stalePostA]]

/-- C3 (code bug): after `staleTrace` the component is keyed to user 2,
is neither loading nor in error (so it renders its posts), yet the posts
it holds were fetched for user 1 -- the stale resolution overwrote the
state for the new id, which the spec's stale-response protection
requirement forbids. -/
theorem postsList_stale_overwrite :
    (staleTrace.foldl postsStep (postsInit 1)).userId = 2 ∧
    (staleTrace.foldl postsStep (postsInit 1)).loading = false ∧
    (staleTrace.foldl postsStep (postsInit 1)).error = none ∧
    (staleTrace.foldl postsStep (postsInit 1)).posts = [stalePostA] ∧
    (staleTrace.foldl postsStep (postsInit 1)).postsSource = some 1 := by
  refine ⟨by decide, by decide, by decide, by decide, by decide⟩

/-! ## Expansion state of the nested list (`PostsList.tsx` lines 185, 212-214)

`expandedPost` is a single `number | null` value; the render expands the
post card whose id strict-equals it. -/

/-- `togglePostExpansion`: `expandedPost === postId ? null : postId`. -/
def togglePostExpansion (expandedPost : Option Int) (postId : Int) : Option Int :=
  if expandedPost == some postId then none else some postId

/-- `expandedPost === post.id`, the render condition of a card's body. -/
def isPostExpanded (expandedPost : Option Int) (postId : Int) : Bool :=
  expandedPost == some postId

/-- C9: the expansion state is one optional id; toggling the currently
expanded item collapses it, toggling any other item expands that item
(implicitly collapsing the previous one), and two items expanded at the
same moment are the same item. -/
theorem togglePostExpansion_single (s : Option Int) (p : Int) :
    (s = some p → togglePostExpansion s p = none) ∧
    (s ≠ some p → togglePostExpansion s p = some p) ∧
    (∀ a b : Int, isPostExpanded s a = true → isPostExpanded s b = true → a = b) := by
  refine ⟨fun h => ?_, fun h => ?_, fun a b ha hb => ?_⟩
  · simp [togglePostExpansion, h]
  · simp [togglePostExpansion, beq_iff_eq, h]
  · rw [isPostExpanded, beq_iff_eq] at ha hb
    rw [ha] at hb
    exact Option.some_inj.mp hb

/-- Witness for C9: collapse at the expanded id 5, expand at the other
id 7, and uniqueness of the expanded item, all at concrete inputs. -/
theorem togglePostExpansion_single_witness :
    togglePostExpansion (some 5) 5 = none ∧
    togglePostExpansion (some 5) 7 = some 7 ∧ (5 : Int) = 5 :=
  ⟨(togglePostExpansion_single (some 5) 5).1 rfl,
   (togglePostExpansion_single (some 5) 7).2.1 (by decide),
   (togglePostExpansion_single (some 5) 5).2.2 5 5 (by decide) (by decide)⟩

end AiHw
